import Mathlib

/-!
Verification development for the web page inliner (`src/inliner/inliner.py`).

The Python source is shallowly embedded below.  External collaborators
(the network transport `urlopen`, the `tinycss2` CSS parser, the
`BeautifulSoup` HTML parser, and UTF-8 byte decoding) are modelled as
fields of an `Env` record, exactly as the design document scopes them out
("treated as external collaborators, specified only at their interface
boundary").  All core logic — name resolution, the import-flattening loop,
font inlining, the data-URI encoder, and the per-element rewriting steps of
`process` — is translated directly from the source.

Bytes are modelled as `Nat` values (with `< 256` hypotheses where the
arithmetic matters); fallible Python code (uncaught exceptions such as
`AssertionError`, `AttributeError`, `IndexError`, `TypeError`, and fetch
failures) is modelled with `Option`, `none` meaning the run aborts.
Recursion through stylesheet imports is unbounded in the source (the spec
itself flags the cycle hazard), so the embedded flattener takes a fuel
argument that decreases on every step; theorems are stated for sufficient
fuel and witnesses instantiate it concretely.
-/

/-- Scheme characters accepted by Python `urllib.parse`: ASCII letters,
digits, `+`, `-`, `.` (checked for every character before the first colon). -/
def schemeChar (c : Char) : Bool :=
  c.isAlphanum || c = '+' || c = '-' || c = '.'

/-- Split a character list at the first colon, returning the characters
before it and the characters after it; `none` when there is no colon.
Models `url.find(chr(58))` in `urllib.parse.urlsplit`. -/
def splitAtFirstColon : List Char → Option (List Char × List Char)
  | [] => none
  | c :: cs =>
    if c = ':' then some ([], cs)
    else
      match splitAtFirstColon cs with
      | none => none
      | some (p, r) => some (c :: p, r)

/-- Whether `urllib.parse.urlparse(name).scheme` is non-empty: there is a
colon, the text before it is non-empty, starts with an ASCII letter, and
consists only of scheme characters.  This is the condition under which the
`try` block of `retrieve_file` (src/inliner/inliner.py lines 51-56) keeps
`url = name`; in every other case the manually raised `ValueError` sends
control to the `except` branch. -/
def hasScheme (name : String) : Bool :=
  match splitAtFirstColon name.toList with
  | none => false
  | some (p, _) =>
    match p with
    | [] => false
    | c :: _ => c.isAlpha && p.all schemeChar

/-- Decide whether the character list `pat` is an initial segment of `cs`. -/
def leadMatch : List Char → List Char → Bool
  | [], _ => true
  | _ :: _, [] => false
  | p :: ps, c :: cs => p = c && leadMatch ps cs

/-- Model of Python `s.startswith(pat)` (kernel-reducible, unlike
`String.startsWith`). -/
def startsWithStr (s pat : String) : Bool := leadMatch pat.toList s.toList

/-- Resolution part of `retrieve_file` (src/inliner/inliner.py lines 51-61):
a name with an explicit scheme is used as-is; a name starting with a slash
is appended to the base; any other name is appended after a slash.  The
bare `except` catches everything, so this function is total. -/
def resolve (base name : String) : String :=
  if hasScheme name then name
  else if startsWithStr name "/" then base ++ name
  else base ++ "/" ++ name

/-- The base64 alphabet used by `base64.standard_b64encode` (RFC 4648). -/
def b64chars : List Char :=
  "ABCDEFGHIJKLMNOPQRSTUVWXYZabcdefghijklmnopqrstuvwxyz0123456789+/".toList

/-- Character for a 6-bit group. -/
def b64char (n : Nat) : Char := b64chars.getD n '='

/-- Index of a character in the base64 alphabet (inverse of `b64char` on
values below 64). -/
def b64index (c : Char) : Nat := b64chars.indexOf c

/-- Standard base64 encoding of a byte list, three bytes at a time with
`=` padding, as performed by `base64.standard_b64encode`. -/
def b64encodeList : List Nat → List Char
  | [] => []
  | [b1] => [b64char (b1 / 4), b64char (b1 % 4 * 16), '=', '=']
  | [b1, b2] =>
    [b64char (b1 / 4), b64char (b1 % 4 * 16 + b2 / 16),
     b64char (b2 % 16 * 4), '=']
  | b1 :: b2 :: b3 :: rest =>
    b64char (b1 / 4) :: b64char (b1 % 4 * 16 + b2 / 16) ::
    b64char (b2 % 16 * 4 + b3 / 64) :: b64char (b3 % 64) ::
    b64encodeList rest

/-- Standard base64 decoding (four characters to three bytes, with `=`
padding recognized at the end), the mathematical inverse used to state the
round-trip property of the spec. -/
def b64decodeList : List Char → List Nat
  | c1 :: c2 :: c3 :: c4 :: rest =>
    if c3 = '=' then
      [b64index c1 * 4 + b64index c2 / 16]
    else if c4 = '=' then
      [b64index c1 * 4 + b64index c2 / 16,
       b64index c2 % 16 * 16 + b64index c3 / 4]
    else
      (b64index c1 * 4 + b64index c2 / 16) ::
      (b64index c2 % 16 * 16 + b64index c3 / 4) ::
      (b64index c3 % 4 * 64 + b64index c4) ::
      b64decodeList rest
  | _ => []

/-- Embedding of `data_as_url` (src/inliner/inliner.py lines 110-113):
base64-encode the bytes, decode the ASCII result as text, and interpolate
into the f-string shape of a `data:` URI. -/
def data_as_url (content : List Nat) (content_type : String) : String :=
  "data:" ++ content_type ++ ";base64," ++ String.mk (b64encodeList content)

theorem b64index_b64char : ∀ n < 64, b64index (b64char n) = n := by decide

theorem b64char_ne_pad : ∀ n < 64, b64char n ≠ '=' := by decide

/-- Unfolding lemma for `b64decodeList` on a four-character block. -/
theorem b64decodeList_cons (c1 c2 c3 c4 : Char) (rest : List Char) :
    b64decodeList (c1 :: c2 :: c3 :: c4 :: rest)
      = if c3 = '=' then
          [b64index c1 * 4 + b64index c2 / 16]
        else if c4 = '=' then
          [b64index c1 * 4 + b64index c2 / 16,
           b64index c2 % 16 * 16 + b64index c3 / 4]
        else
          (b64index c1 * 4 + b64index c2 / 16) ::
          (b64index c2 % 16 * 16 + b64index c3 / 4) ::
          (b64index c3 % 4 * 64 + b64index c4) ::
          b64decodeList rest := rfl

/-- Round trip of the base64 coder on byte lists, by induction on the
length bound. -/
theorem b64_round_aux :
    ∀ (n : Nat) (bs : List Nat), bs.length ≤ n → (∀ b ∈ bs, b < 256) →
      b64decodeList (b64encodeList bs) = bs := by
  intro n
  induction n with
  | zero =>
    intro bs hlen _
    have : bs = [] := List.eq_nil_of_length_eq_zero (Nat.le_zero.mp hlen)
    subst this
    rfl
  | succ m ih =>
    intro bs hlen hb
    match bs with
    | [] => rfl
    | [b1] =>
      have h1 : b1 < 256 := hb b1 (by simp)
      have e1 : b1 / 4 < 64 := by omega
      have e2 : b1 % 4 * 16 < 64 := by omega
      show b64decodeList
          (b64char (b1 / 4) :: b64char (b1 % 4 * 16) :: '=' :: '=' :: [])
        = [b1]
      rw [b64decodeList_cons, if_pos rfl]
      rw [b64index_b64char _ e1, b64index_b64char _ e2]
      simp only [List.cons.injEq, and_true]
      omega
    | [b1, b2] =>
      have h1 : b1 < 256 := hb b1 (by simp)
      have h2 : b2 < 256 := hb b2 (by simp)
      have e1 : b1 / 4 < 64 := by omega
      have e2 : b1 % 4 * 16 + b2 / 16 < 64 := by omega
      have e3 : b2 % 16 * 4 < 64 := by omega
      show b64decodeList
          (b64char (b1 / 4) :: b64char (b1 % 4 * 16 + b2 / 16) ::
           b64char (b2 % 16 * 4) :: '=' :: [])
        = [b1, b2]
      rw [b64decodeList_cons, if_neg (b64char_ne_pad _ e3), if_pos rfl]
      rw [b64index_b64char _ e1, b64index_b64char _ e2, b64index_b64char _ e3]
      simp only [List.cons.injEq, and_true]
      omega
    | b1 :: b2 :: b3 :: rest =>
      have h1 : b1 < 256 := hb b1 (by simp)
      have h2 : b2 < 256 := hb b2 (by simp)
      have h3 : b3 < 256 := hb b3 (by simp)
      have e1 : b1 / 4 < 64 := by omega
      have e2 : b1 % 4 * 16 + b2 / 16 < 64 := by omega
      have e3 : b2 % 16 * 4 + b3 / 64 < 64 := by omega
      have e4 : b3 % 64 < 64 := by omega
      have hrest : ∀ b ∈ rest, b < 256 := by
        intro b hbm
        exact hb b (by simp [hbm])
      have hlen' : rest.length ≤ m := by
        simp only [List.length_cons] at hlen
        omega
      show b64decodeList
          (b64char (b1 / 4) :: b64char (b1 % 4 * 16 + b2 / 16) ::
           b64char (b2 % 16 * 4 + b3 / 64) :: b64char (b3 % 64) ::
           b64encodeList rest)
        = b1 :: b2 :: b3 :: rest
      rw [b64decodeList_cons,
          if_neg (b64char_ne_pad _ e3), if_neg (b64char_ne_pad _ e4)]
      rw [b64index_b64char _ e1, b64index_b64char _ e2,
          b64index_b64char _ e3, b64index_b64char _ e4]
      rw [ih rest hlen' hrest]
      simp only [List.cons.injEq, and_true]
      omega

/-- C6: `data_as_url` returns exactly `"data:" + contentType + ";base64," +`
the base64 encoding of the bytes (it is a pure function, hence
deterministic), and base64-decoding that payload reproduces the original
byte list. -/
theorem data_as_url_spec (content : List Nat) (content_type : String)
    (h : ∀ b ∈ content, b < 256) :
    data_as_url content content_type
        = "data:" ++ content_type ++ ";base64,"
            ++ String.mk (b64encodeList content)
      ∧ b64decodeList (b64encodeList content) = content := by
  refine ⟨rfl, ?_⟩
  exact b64_round_aux content.length content (Nat.le_refl _) h

/-- C6 witness: the property evaluated on the concrete bytes 77, 97, 110
with content type image/png. -/
theorem data_as_url_spec_witness :
    data_as_url [77, 97, 110] "image/png"
        = "data:" ++ "image/png" ++ ";base64,"
            ++ String.mk (b64encodeList [77, 97, 110])
      ∧ b64decodeList (b64encodeList [77, 97, 110]) = [77, 97, 110] :=
  data_as_url_spec [77, 97, 110] "image/png" (by decide)

/-- C2: the resolution contract of `retrieve_file` for non-empty names — a
name with an explicit scheme resolves to itself, a root-relative name to
`base + name`, and any other name to `base + "/" + name`. -/
theorem resolve_contract (base name : String) (_h : name ≠ "") :
    (hasScheme name = true → resolve base name = name)
    ∧ (hasScheme name = false → startsWithStr name "/" = true →
        resolve base name = base ++ name)
    ∧ (hasScheme name = false → startsWithStr name "/" = false →
        resolve base name = base ++ "/" ++ name) := by
  refine ⟨?_, ?_, ?_⟩ <;> intro h1
  · simp [resolve, h1]
  · intro h2
    simp [resolve, h1, h2]
  · intro h2
    simp [resolve, h1, h2]

/-- C2 witness: the three concrete resolutions listed in the spec. -/
theorem resolve_contract_witness :
    resolve "http://x.com" "img/a.png" = "http://x.com" ++ "/" ++ "img/a.png"
    ∧ resolve "http://x.com" "/img/a.png" = "http://x.com" ++ "/img/a.png"
    ∧ resolve "http://x.com" "http://y.com/b.png" = "http://y.com/b.png" :=
  ⟨(resolve_contract "http://x.com" "img/a.png" (by decide)).2.2
      (by decide) (by decide),
   (resolve_contract "http://x.com" "/img/a.png" (by decide)).2.1
      (by decide) (by decide),
   (resolve_contract "http://x.com" "http://y.com/b.png" (by decide)).1
      (by decide)⟩

/-- C8 counterexample: resolving the empty resource name is not an error —
the bare `except` branch of `retrieve_file` turns it into the reference
`base + "/"`. -/
theorem resolve_empty_name_not_an_error :
    resolve "http://x.com" "" = "http://x.com/" := by decide

/-- C8 as amended: resolution is a pure total function — it performs no
I/O and never fails; in particular the empty name resolves to
`base + "/"` instead of being rejected. -/
theorem resolve_total_on_empty (base : String) :
    resolve base "" = base ++ "/" := by
  have h1 : hasScheme "" = false := rfl
  have h2 : startsWithStr "" "/" = false := rfl
  simp only [resolve, h1, h2, Bool.false_eq_true, if_false]
  exact congrArg (base ++ "/" ++ ·) rfl |>.trans (by simp)

/-- Component values inside a tinycss2 rule.  `stringTok` and `urlTok`
carry a `value` and a `representation` (the representation is what
`serialize` emits; the font-face rewrite mutates it).  `function` models a
`FunctionBlock` (it has a `name` and `arguments` but no scalar value);
`raw` models every other token (whitespace, delimiters, ...), whose value
and representation coincide for our purposes. -/
inductive Component where
  | stringTok (value representation : String)
  | urlTok (value representation : String)
  | function (name : String) (args : List Component)
  | raw (representation : String)
deriving Repr

/-- A parsed stylesheet rule, after `tinycss2.parse_stylesheet`: a
comment, an at-rule (keyword, prelude component values, optional block
content), an opaque qualified rule kept verbatim, or a parse error node.
-/
inductive Rule where
  | comment (value : String)
  | atRule (keyword : String) (prelude : List Component)
      (content : Option (List Component))
  | qualified (representation : String)
  | error (line col : Nat)
deriving Repr

/-- A node of the markup tree built by BeautifulSoup: an element with tag
name, ordered attributes and ordered children, or a text leaf. -/
inductive Node where
  | elem (tag : String) (attrs : List (String × String))
      (children : List Node)
  | text (s : String)
deriving Repr

/-- External collaborators of the inliner, modelled at their interface
boundary exactly as the design document scopes them: the transport
(`urlopen` + `response.info().get_content_type()` + `response.read()`),
UTF-8 byte decoding, the tinycss2 stylesheet parser, and the
BeautifulSoup markup parser used for fetched SVG images.  `fetch` returns
`none` when the resource is unavailable (fatal for the run). -/
structure Env where
  fetch : String → Option (String × List Nat)
  decodeUtf8 : List Nat → String
  parseCss : String → List Rule
  parseHtml : List Nat → Node

/-- Embedding of `retrieve_file` (src/inliner/inliner.py lines 46-65):
resolve the name against the base context, then fetch, returning the
content type and the raw bytes. -/
def retrieve_file (env : Env) (base name : String) :
    Option (String × List Nat) :=
  env.fetch (resolve base name)

/-- The Python attribute access `component.value`: string and url tokens
(and plain tokens) carry a value; a `FunctionBlock` does not, so reading
it raises `AttributeError` (`none`). -/
def compValue : Component → Option String
  | .stringTok v _ => some v
  | .urlTok v _ => some v
  | .raw r => some r
  | .function _ _ => none

/-- The Python assignment `component.representation = r`. -/
def setRepr : Component → String → Component
  | .stringTok v _, r => .stringTok v r
  | .urlTok v _, r => .urlTok v r
  | .raw _, r => .raw r
  | .function n args, _ => .function n args

/-- Target extraction of the `@import` branch (src/inliner/inliner.py
lines 88-91): `f = rule.prelude[1]` (IndexError when the prelude is
shorter), `assert f.name == "url"` (AttributeError on tokens without a
`name`, AssertionError on other function names), `args[0]` (IndexError on
an empty argument list), then `url.value`.  Any raised exception is
`none`. -/
def extractImportTarget (prelude : List Component) : Option String :=
  match prelude with
  | _ :: f :: _ =>
    match f with
    | .function fname args =>
      if fname = "url" then
        match args with
        | [] => none
        | a :: _ => compValue a
      else none
    | _ => none
  | _ => none

/-- Font-face token rewrite (src/inliner/inliner.py lines 96-105): a
`function` token named `url` has its first argument inspected; a value
already starting with `data:` is left untouched, otherwise the resource
is fetched and the argument's representation is overwritten with the
`data:` URI of the fetched bytes.  Every other token is left unchanged. -/
def processFontTok (env : Env) (base : String) :
    Component → Option Component
  | .function fname args =>
    if fname = "url" then
      match args with
      | [] => none
      | a :: rest =>
        match compValue a with
        | none => none
        | some v =>
          if startsWithStr v "data:" then
            some (.function fname (a :: rest))
          else
            match retrieve_file env base v with
            | none => none
            | some fd =>
              some (.function fname (setRepr a (data_as_url fd.2 fd.1) :: rest))
    else some (.function fname args)
  | c => some c

/-- The while loop of `inline_css_imports` (src/inliner/inliner.py lines
79-108), with `P` the processed prefix `stylesheet[:ii]` and the second
list the remainder `stylesheet[ii:]`.  A comment is dropped and the index
is not advanced (`continue`).  An `@import` extracts its target, fetches
and recursively flattens it (`load_css`), splices the result in place of
the rule, and then advances the index by one — which moves the first
element of the spliced sequence (or, when the import flattened to
nothing, the rule that followed the import) into the processed prefix
without examining it.  A `@font-face` has its content tokens rewritten
(iterating `None` content raises `TypeError`).  Every other rule is kept
and the index advances.  The `fuel` argument decreases on every step and
on every recursive descent; `none` on exhaustion or on any raised
exception / failed fetch. -/
def flattenLoop (env : Env) (base : String) :
    Nat → List Rule → List Rule → Option (List Rule)
  | 0, _, _ => none
  | _ + 1, P, [] => some P
  | n + 1, P, r :: R =>
    match r with
    | .comment _ => flattenLoop env base n P R
    | .atRule kw prelude content =>
      if kw = "import" then
        match extractImportTarget prelude with
        | none => none
        | some t =>
          match retrieve_file env base t with
          | none => none
          | some fd =>
            match flattenLoop env base n []
                (env.parseCss (env.decodeUtf8 fd.2)) with
            | none => none
            | some sub =>
              match sub ++ R with
              | [] => some P
              | x :: rest => flattenLoop env base n (P ++ [x]) rest
      else if kw = "font-face" then
        match content with
        | none => none
        | some toks =>
          match toks.mapM (processFontTok env base) with
          | none => none
          | some toks2 =>
            flattenLoop env base n (P ++ [.atRule kw prelude (some toks2)]) R
      else flattenLoop env base n (P ++ [r]) R
    | _ => flattenLoop env base n (P ++ [r]) R

/-- Embedding of `load_css` (src/inliner/inliner.py lines 67-71): fetch
the stylesheet (content type unused), decode the bytes as UTF-8, and
flatten the parsed rules. -/
def load_css (env : Env) (base : String) (n : Nat) (href : String) :
    Option (List Rule) :=
  match retrieve_file env base href with
  | none => none
  | some fd => flattenLoop env base n [] (env.parseCss (env.decodeUtf8 fd.2))

/-- Embedding of `inline_css_imports` (src/inliner/inliner.py lines
73-108): parse the text and run the flattening loop from index 0.  (The
initial pass over the parsed rules only logs parse errors and changes
nothing.) -/
def inline_css_imports (env : Env) (base : String) (n : Nat)
    (content : String) : Option (List Rule) :=
  flattenLoop env base n [] (env.parseCss content)

mutual

/-- Serialization of a component value, following `tinycss2.serialize`:
string and url tokens emit their representation, a function emits
`name(args)`, and raw tokens emit their representation. -/
def serializeComponent : Component → String
  | .stringTok _ r => r
  | .urlTok _ r => r
  | .function fname args =>
    fname ++ "(" ++ serializeComponents args ++ ")"
  | .raw r => r

/-- Serialization of a component list, concatenated in order. -/
def serializeComponents : List Component → String
  | [] => ""
  | c :: cs => serializeComponent c ++ serializeComponents cs

end

/-- Serialization of one rule, following tinycss2 `Node.serialize`: a
comment is `/*value*/`, an at-rule is `@keyword` followed by its prelude
and either `;` or its block, and a qualified rule is kept verbatim.
(Parse-error nodes are never serialized by the claims considered here.) -/
def serializeRule : Rule → String
  | .comment v => "/*" ++ v ++ "*/"
  | .atRule kw prelude content =>
    "@" ++ kw ++ serializeComponents prelude ++
      (match content with
       | none => ";"
       | some c => serializeComponents c)
  | .qualified r => r
  | .error _ _ => ""

/-- Python `sep.join(xs)`. -/
def joinSep (sep : String) : List String → String
  | [] => ""
  | [x] => x
  | x :: xs => x ++ sep ++ joinSep sep xs

/-- Python `tag.get(key)` on the ordered attribute list. -/
def getAttr : List (String × String) → String → Option String
  | [], _ => none
  | (k, v) :: rest, key => if k = key then some v else getAttr rest key

/-- Python `del tag[key]`. -/
def removeAttr : List (String × String) → String → List (String × String)
  | [], _ => []
  | (k, v) :: rest, key =>
    if k = key then rest else (k, v) :: removeAttr rest key

/-- Python `tag[key] = v` (updates the existing slot in place, appends
otherwise). -/
def setAttr : List (String × String) → String → String → List (String × String)
  | [], key, v => [(key, v)]
  | (k, w) :: rest, key, v =>
    if k = key then (key, v) :: rest else (k, w) :: setAttr rest key v

/-- Python truthiness of `tag.get(key)`: `None` and the empty string are
falsy. -/
def truthy : Option String → Bool
  | none => false
  | some s => if s = "" then false else true

/-- BeautifulSoup's multi-valued `rel` attribute: the attribute text split
on spaces. -/
def relValuesAux : List Char → List Char → List (List Char)
  | [], acc => [acc.reverse]
  | c :: cs, acc =>
    if c = ' ' then acc.reverse :: relValuesAux cs []
    else relValuesAux cs (c :: acc)

/-- List of `rel` values of a `link` element. -/
def relValues (s : String) : List String :=
  (relValuesAux s.toList []).map String.mk

/-- The `style` pass body of `process` (src/inliner/inliner.py lines
125-127): flatten the element's text and replace it with the serialized
rules, joined with a newline when pretty-printing and concatenated
otherwise. -/
def styleStep (env : Env) (base : String) (n : Nat) (pretty : Bool)
    (s : String) : Option String :=
  match inline_css_imports env base n s with
  | none => none
  | some rs =>
    some (joinSep (if pretty then "\n" else "") (rs.map serializeRule))

/-- The `link` pass body of `process` (src/inliner/inliner.py lines
129-142) for one `link` element: `'stylesheet' in tag.get('rel')` raises
`TypeError` when `rel` is absent; the resource name is read from a truthy
`href` (which is then deleted), else from a truthy `data-href` (then
deleted); if a name was found the stylesheet is fetched and flattened and
the whole element is replaced by a new `style` element carrying the
concatenated serialized rules; otherwise the element is left as it is. -/
def linkStep (env : Env) (base : String) (n : Nat)
    (attrs : List (String × String)) (children : List Node) : Option Node :=
  match getAttr attrs "rel" with
  | none => none
  | some rel =>
    if "stylesheet" ∈ relValues rel then
      match (if truthy (getAttr attrs "href") then
               (getAttr attrs "href", removeAttr attrs "href")
             else if truthy (getAttr attrs "data-href") then
               (getAttr attrs "data-href", removeAttr attrs "data-href")
             else (none, attrs)) with
      | (some h, _) =>
        match load_css env base n h with
        | none => none
        | some rs =>
          some (Node.elem "style" []
            [Node.text (joinSep "" (rs.map serializeRule))])
      | (none, attrs2) => some (Node.elem "link" attrs2 children)
    else some (Node.elem "link" attrs children)

/-- The `img` pass body of `process` (src/inliner/inliner.py lines
151-161) for one `img` element, also returning the list of references it
fetched.  `tag.get('src').startswith('data:')` raises `AttributeError`
when `src` is absent; an already-inline `src` leaves the element
untouched with no fetch; otherwise the resource is fetched and either the
element is replaced with the parsed markup of the bytes (content type
`image/svg+xml`) or its `src` is rewritten to a `data:` URI. -/
def imgStep (env : Env) (base : String) (attrs : List (String × String))
    (children : List Node) : Option (Node × List String) :=
  match getAttr attrs "src" with
  | none => none
  | some src =>
    if startsWithStr src "data:" then
      some (Node.elem "img" attrs children, [])
    else
      match retrieve_file env base src with
      | none => none
      | some fd =>
        if fd.1 = "image/svg+xml" then
          some (env.parseHtml fd.2, [resolve base src])
        else
          some (Node.elem "img" (setAttr attrs "src" (data_as_url fd.2 fd.1))
                  children, [resolve base src])

/-- One step of the `img` loop on an arbitrary node from
`soup.find_all('img')`: only `img` elements are transformed. -/
def imgStepNode (env : Env) (base : String) : Node → Option (Node × List String)
  | .elem t attrs children =>
    if t = "img" then imgStep env base attrs children
    else some (.elem t attrs children, [])
  | nd => some (nd, [])

/-- The `img` pass over the document-order list of nodes; a raised
exception in any step aborts the whole run. -/
def imgPass (env : Env) (base : String) : List Node → Option (List Node × List String)
  | [] => some ([], [])
  | nd :: ns =>
    match imgStepNode env base nd with
    | none => none
    | some (nd2, f1) =>
      match imgPass env base ns with
      | none => none
      | some (ns2, f2) => some (nd2 :: ns2, f1 ++ f2)

/-- Whether a rule takes the default branch of the flattening loop (kept
verbatim, index advanced): anything but a comment, an `@import`, or a
`@font-face`. -/
def isPlain : Rule → Bool
  | .comment _ => false
  | .atRule kw _ _ =>
    if kw = "import" then false else if kw = "font-face" then false else true
  | .qualified _ => true
  | .error _ _ => true

/-- The concrete test environment used by the closed evaluation theorems:
a site rooted at `http://x.com` serving an empty stylesheet `e.css`, a
one-rule stylesheet `s.css`, an SVG image `icon.svg` and a PNG image
`pix.png`; the parser fields reproduce what tinycss2 / BeautifulSoup
return on exactly the inputs exercised. -/
def TE : Env where
  fetch := fun u =>
    if u = "http://x.com/e.css" then some ("text/css", [])
    else if u = "http://x.com/s.css" then some ("text/css", [97])
    else if u = "http://x.com/icon.svg" then some ("image/svg+xml", [60])
    else if u = "http://x.com/pix.png" then some ("image/png", [1, 2])
    else none
  decodeUtf8 := fun bs => if bs = [97] then "a" else ""
  parseCss := fun s =>
    if s = "@import url(\"e.css\");/*c*/" then
      [Rule.atRule "import"
        [Component.raw " ",
         Component.function "url" [Component.stringTok "e.css" "\"e.css\""]]
        none,
       Rule.comment "c"]
    else if s = "/*c*/" then [Rule.comment "c"]
    else if s = "@import \"a.css\";" then
      [Rule.atRule "import"
        [Component.raw " ", Component.stringTok "a.css" "\"a.css\""] none]
    else if s = "a" then [Rule.qualified "a"]
    else []
  parseHtml := fun bs =>
    if bs = [60] then Node.elem "svg" [] [] else Node.text ""

theorem flattenLoop_comment (env : Env) (base : String) (n : Nat)
    (P : List Rule) (v : String) (R : List Rule) :
    flattenLoop env base (n + 1) P (Rule.comment v :: R)
      = flattenLoop env base n P R := rfl

theorem flattenLoop_qualified (env : Env) (base : String) (n : Nat)
    (P : List Rule) (s : String) (R : List Rule) :
    flattenLoop env base (n + 1) P (Rule.qualified s :: R)
      = flattenLoop env base n (P ++ [Rule.qualified s]) R := rfl

theorem flattenLoop_error (env : Env) (base : String) (n : Nat)
    (P : List Rule) (l c : Nat) (R : List Rule) :
    flattenLoop env base (n + 1) P (Rule.error l c :: R)
      = flattenLoop env base n (P ++ [Rule.error l c]) R := rfl

theorem flattenLoop_import (env : Env) (base : String) (n : Nat)
    (P : List Rule) (prelude : List Component)
    (content : Option (List Component)) (R : List Rule) :
    flattenLoop env base (n + 1) P (Rule.atRule "import" prelude content :: R)
      = match extractImportTarget prelude with
        | none => none
        | some t =>
          match retrieve_file env base t with
          | none => none
          | some fd =>
            match flattenLoop env base n []
                (env.parseCss (env.decodeUtf8 fd.2)) with
            | none => none
            | some sub =>
              match sub ++ R with
              | [] => some P
              | x :: rest => flattenLoop env base n (P ++ [x]) rest := rfl

theorem flattenLoop_atRule_other (env : Env) (base : String) (n : Nat)
    (P : List Rule) (kw : String) (prelude : List Component)
    (content : Option (List Component)) (R : List Rule)
    (h1 : ¬kw = "import") (h2 : ¬kw = "font-face") :
    flattenLoop env base (n + 1) P (Rule.atRule kw prelude content :: R)
      = flattenLoop env base n (P ++ [Rule.atRule kw prelude content]) R := by
  simp only [flattenLoop, if_neg h1, if_neg h2]

/-- Rules on which the loop only advances the index leave the processed
prefix and themselves unchanged, given enough fuel. -/
theorem flattenLoop_plain (env : Env) (base : String) :
    ∀ (L P : List Rule) (n : Nat),
      (∀ r ∈ L, isPlain r = true) → L.length < n →
      flattenLoop env base n P L = some (P ++ L) := by
  intro L
  induction L with
  | nil =>
    intro P n _ hn
    match n, hn with
    | m + 1, _ => simp [flattenLoop]
  | cons r L' ih =>
    intro P n hp hn
    match n, hn with
    | m + 1, hn =>
      have hr : isPlain r = true := hp r (by simp)
      have hL' : ∀ x ∈ L', isPlain x = true := fun x hx => hp x (by simp [hx])
      have hm : L'.length < m := by
        simp only [List.length_cons] at hn
        omega
      cases r with
      | comment v => simp [isPlain] at hr
      | atRule kw prelude content =>
        have h12 : ¬kw = "import" ∧ ¬kw = "font-face" := by
          by_cases e1 : kw = "import"
          · simp [isPlain, e1] at hr
          · by_cases e2 : kw = "font-face"
            · simp [isPlain, e1, e2] at hr
            · exact ⟨e1, e2⟩
        rw [flattenLoop_atRule_other env base m P kw prelude content L'
              h12.1 h12.2]
        rw [ih (P ++ [Rule.atRule kw prelude content]) m hL' hm]
        simp
      | qualified s =>
        rw [flattenLoop_qualified, ih (P ++ [Rule.qualified s]) m hL' hm]
        simp
      | error l c =>
        rw [flattenLoop_error, ih (P ++ [Rule.error l c]) m hL' hm]
        simp

/-- C7 counterexample: an `@import` whose target is a quoted string
(`@import "a.css";`) aborts the flattener — `rule.prelude[1]` is a
`StringToken`, which has no `name` attribute, so the extraction raises
instead of reading the target. -/
theorem import_quoted_target_errors :
    inline_css_imports TE "http://x.com" 10 "@import \"a.css\";" = none := rfl

/-- C7 as amended: for an `@import` rule whose target is given as a
`url("...")` function token, the flattener extracts the target name
without error, resolves it against the same base, fetches it, recursively
flattens the fetched text, and splices the flattened rules in place of
the `@import` rule (stated here with plain rules around the splice point,
so that the rest of the loop is pure passthrough). -/
theorem import_url_function_splices (env : Env) (base : String) (n : Nat)
    (t rep : String) (ws : Component) (R sub : List Rule)
    (hload : load_css env base n t = some sub)
    (hplain : ∀ x ∈ sub ++ R, isPlain x = true)
    (hn : sub.length + R.length < n) :
    flattenLoop env base (n + 1) []
        (Rule.atRule "import"
          [ws, Component.function "url" [Component.stringTok t rep]] none :: R)
      = some (sub ++ R) := by
  have hex : extractImportTarget
      [ws, Component.function "url" [Component.stringTok t rep]] = some t := rfl
  rw [flattenLoop_import, hex]
  unfold load_css at hload
  cases hfd : retrieve_file env base t with
  | none => rw [hfd] at hload; exact absurd hload (by simp)
  | some fd =>
    rw [hfd] at hload
    have hload2 : flattenLoop env base n []
        (env.parseCss (env.decodeUtf8 fd.2)) = some sub := hload
    simp only [hfd]
    rw [hload2]
    show (match sub ++ R with
          | [] => some []
          | x :: rest => flattenLoop env base n ([] ++ [x]) rest)
        = some (sub ++ R)
    cases hsR : sub ++ R with
    | nil => simp
    | cons x rest =>
      have hrest : ∀ y ∈ rest, isPlain y = true := by
        intro y hy
        exact hplain y (by rw [hsR]; simp [hy])
      have hlen : rest.length < n := by
        have : (sub ++ R).length = rest.length + 1 := by rw [hsR]; simp
        simp only [List.length_append] at this
        omega
      show flattenLoop env base n ([] ++ [x]) rest = some (x :: rest)
      rw [flattenLoop_plain env base rest ([] ++ [x]) n hrest hlen]
      simp

/-- C7 witness: the amended theorem evaluated on the concrete environment,
importing the empty stylesheet `e.css` in front of one qualified rule. -/
theorem import_url_function_splices_witness :
    flattenLoop TE "http://x.com" 3 []
        (Rule.atRule "import"
          [Component.raw " ",
           Component.function "url" [Component.stringTok "e.css" "\"e.css\""]]
          none :: [Rule.qualified "x"])
      = some (([] : List Rule) ++ [Rule.qualified "x"]) :=
  import_url_function_splices TE "http://x.com" 2 "e.css" "\"e.css\""
    (Component.raw " ") [Rule.qualified "x"] [] rfl (by decide) (by decide)

/-- C1: evaluation at the failing input.  Flattening the stylesheet
`@import url("e.css");/*c*/`, where `e.css` fetches as the empty
stylesheet, returns a rule sequence that still contains the `Comment`
rule: after splicing the (empty) imported rules the loop advances the
index without examining the rule that now occupies the import's slot, so
the comment that followed the import is never dropped.  This contradicts
the guarantee that the flattened output contains no `Comment` rules. -/
theorem flatten_output_keeps_comment :
    inline_css_imports TE "http://x.com" 10 "@import url(\"e.css\");/*c*/"
      = some [Rule.comment "c"] := rfl

/-- C4: evaluation at the failing input.  The `style` pass on the text
`@import url("e.css");/*c*/` (with `e.css` fetching empty) produces the
text `/*c*/`; running the same pass again on that output produces the
empty text, because this time the comment is dropped.  A document whose
`style` element holds the first text is therefore changed again by a
second run of the inliner, refuting idempotence. -/
theorem styleStep_not_idempotent :
    styleStep TE "http://x.com" 10 false "@import url(\"e.css\");/*c*/"
        = some "/*c*/"
      ∧ styleStep TE "http://x.com" 10 false "/*c*/" = some ""
      ∧ ("/*c*/" : String) ≠ "" :=
  ⟨rfl, rfl, by decide⟩

/-- C3 counterexample: a `link` element with `rel="stylesheet"` and an
`href` attribute whose value is empty is left completely unmodified — the
Python truthiness test `if tag.get('href'):` treats the present-but-empty
attribute as absent, so the attribute is not removed and no `style`
replacement happens, contradicting the claim for elements that have an
`href` attribute. -/
theorem linkStep_empty_href_unmodified :
    linkStep TE "http://x.com" 5 [("rel", "stylesheet"), ("href", "")] []
        = some (Node.elem "link" [("rel", "stylesheet"), ("href", "")] [])
      ∧ getAttr [("rel", "stylesheet"), ("href", "")] "href" = some "" :=
  ⟨rfl, rfl⟩

/-- C3 as amended: for every `link` element with `stylesheet` among its
`rel` values — if it has a non-empty `href` (preferred) or else a
non-empty `data-href`, that attribute is removed and the whole element is
replaced by a new attribute-less `style` element holding the serialized
flattened rules of the fetched stylesheet (so no `href` remains); if
neither attribute is present with a non-empty value, the element is left
unmodified. -/
theorem linkStep_contract (env : Env) (base : String) (n : Nat)
    (attrs : List (String × String)) (children : List Node) (rel : String)
    (hrel : getAttr attrs "rel" = some rel)
    (hmem : "stylesheet" ∈ relValues rel) :
    (∀ h rs, getAttr attrs "href" = some h → ¬h = "" →
       load_css env base n h = some rs →
       linkStep env base n attrs children
         = some (Node.elem "style" []
             [Node.text (joinSep "" (rs.map serializeRule))]))
    ∧ (∀ h rs, truthy (getAttr attrs "href") = false →
       getAttr attrs "data-href" = some h → ¬h = "" →
       load_css env base n h = some rs →
       linkStep env base n attrs children
         = some (Node.elem "style" []
             [Node.text (joinSep "" (rs.map serializeRule))]))
    ∧ (truthy (getAttr attrs "href") = false →
       truthy (getAttr attrs "data-href") = false →
       linkStep env base n attrs children
         = some (Node.elem "link" attrs children)) := by
  refine ⟨?_, ?_, ?_⟩
  · intro h rs hh hne hload
    have ht : truthy (some h) = true := by simp [truthy, hne]
    simp [linkStep, hrel, hmem, hh, ht, hload]
  · intro h rs hf hh hne hload
    have ht : truthy (some h) = true := by simp [truthy, hne]
    simp [linkStep, hrel, hmem, hf, hh, ht, hload]
  · intro hf hd
    simp [linkStep, hrel, hmem, hf, hd]

/-- C3 witness: a concrete stylesheet link with `href="s.css"` is replaced
by the `style` element holding the serialized flattened rules. -/
theorem linkStep_contract_witness :
    linkStep TE "http://x.com" 3 [("rel", "stylesheet"), ("href", "s.css")] []
      = some (Node.elem "style" []
          [Node.text (joinSep "" ([Rule.qualified "a"].map serializeRule))]) :=
  (linkStep_contract TE "http://x.com" 3
      [("rel", "stylesheet"), ("href", "s.css")] [] "stylesheet" rfl
      (by decide)).1 "s.css" [Rule.qualified "a"] rfl (by decide) rfl

/-- C5: an `img` element whose `src` does not start with `data:` and whose
fetched content type is `image/svg+xml` is replaced by the parsed markup
tree of the fetched bytes (no data-URI rewrite); for any other content
type its `src` is rewritten to the `data:` URI of the fetched bytes. -/
theorem imgStep_svg_contract (env : Env) (base : String)
    (attrs : List (String × String)) (children : List Node)
    (src ct : String) (bytes : List Nat)
    (hsrc : getAttr attrs "src" = some src)
    (hni : startsWithStr src "data:" = false)
    (hf : retrieve_file env base src = some (ct, bytes)) :
    (ct = "image/svg+xml" →
      imgStep env base attrs children
        = some (env.parseHtml bytes, [resolve base src]))
    ∧ (¬ct = "image/svg+xml" →
      imgStep env base attrs children
        = some (Node.elem "img" (setAttr attrs "src" (data_as_url bytes ct))
                  children, [resolve base src])) := by
  constructor
  · intro hct
    simp [imgStep, hsrc, hni, hf, hct]
  · intro hct
    simp [imgStep, hsrc, hni, hf, hct]

/-- C5 witness: a concrete `img` with `src="icon.svg"`, fetched as
`image/svg+xml`, is replaced by the parsed markup of the fetched bytes. -/
theorem imgStep_svg_contract_witness :
    imgStep TE "http://x.com" [("src", "icon.svg")] []
      = some (TE.parseHtml [60], [resolve "http://x.com" "icon.svg"]) :=
  (imgStep_svg_contract TE "http://x.com" [("src", "icon.svg")] []
      "icon.svg" "image/svg+xml" [60] rfl (by decide) rfl).1 rfl

/-- C9: an `img` element whose `src` already starts with the inline-data
marker `data:` is returned unchanged — same tag, same attributes, same
children — and the step fetches nothing. -/
theorem imgStep_inline_untouched (env : Env) (base : String)
    (attrs : List (String × String)) (children : List Node) (src : String)
    (hsrc : getAttr attrs "src" = some src)
    (hdata : startsWithStr src "data:" = true) :
    imgStep env base attrs children
      = some (Node.elem "img" attrs children, []) := by
  simp [imgStep, hsrc, hdata]

/-- C9 witness: a concrete already-inline image is left untouched with an
empty fetch list. -/
theorem imgStep_inline_untouched_witness :
    imgStep TE "http://x.com" [("src", "data:image/png;base64,AAAA")] []
      = some (Node.elem "img" [("src", "data:image/png;base64,AAAA")] [], []) :=
  imgStep_inline_untouched TE "http://x.com"
    [("src", "data:image/png;base64,AAAA")] [] "data:image/png;base64,AAAA"
    rfl (by decide)

/-- C10: the `img` pass aborts (raises) on any document-order node list
that contains an `img` element with no `src` attribute, because
`tag.get('src').startswith('data:')` dereferences the absent attribute
before any presence test. -/
theorem imgPass_missing_src_aborts (env : Env) (base : String)
    (pre post : List Node) (attrs : List (String × String))
    (children : List Node)
    (h : getAttr attrs "src" = none) :
    imgPass env base (pre ++ Node.elem "img" attrs children :: post)
      = none := by
  induction pre with
  | nil =>
    have h0 : imgStepNode env base (Node.elem "img" attrs children) = none := by
      simp [imgStepNode, imgStep, h]
    simp [imgPass, h0]
  | cons nd pre' ih =>
    cases hnd : imgStepNode env base nd with
    | none => simp [imgPass, hnd]
    | some p =>
      obtain ⟨nd2, f1⟩ := p
      simp [imgPass, hnd, ih]

/-- C10 witness: a document consisting of one bare `img` element aborts
the pass. -/
theorem imgPass_missing_src_aborts_witness :
    imgPass TE "http://x.com" ([] ++ Node.elem "img" [] [] :: []) = none :=
  imgPass_missing_src_aborts TE "http://x.com" [] [] [] [] rfl
